import Mathlib

/-!
Dispatch behaviour of `backend/cmd/git-hook/main.go`

The program is one function, `main`.  It reads three flags, resolves a
repository path, builds a git service and runs one of three modes.  All git
work happens in the package `internal/services`, whose code `main` only calls;
its six operations are therefore taken as parameters (`Services`).  They are effectful in Go, so every operation threads an explicit
world of type `W`: an arbitrary initial world and arbitrary operations cover
every behaviour of a collaborator that returns from its calls.

`main` itself is embedded as a program in an exception-over-state monad: the
state is the ordered trace of what happened so far together with the current
world, and the exception is the exit status passed to `os.Exit` by
`log.Fatalf`.
-/

namespace GitHook

/-- A non-nil Go `error`, represented by the text its `Error()` method returns;
this is what the verb `%v` prints. -/
structure GoError where
  Error : String
  deriving DecidableEq

/-- The three flags after `flag.Parse()` (main.go lines 11-16). -/
structure Flags where
  repoPath : String := ""
  commitHash : String := ""
  hookMode : Bool := false
  deriving DecidableEq

/-- The operations of package `services` that `main` consumes.  `G` is the
type of the service handle, `D` the type of a commit diff, `W` the state of the
outside world.  A Go result pair `(v, err)` is a Lean pair whose second
component is `none` for a nil error. -/
structure Services (W G D : Type) where
  GetCurrentRepoPath : W → (String × Option GoError) × W
  NewGitService : String → W → G × W
  OnCommitHook : G → W → Option GoError × W
  GetCommitDiff : G → String → W → (D × Option GoError) × W
  GetLatestCommitDiff : G → W → (D × Option GoError) × W
  PrintCommitDiff : G → D → W → W

/-- One entry of the trace: a completed collaborator call with its arguments
and its results, or a call of the `log` package with the formatted message
(the time stamp and the line end that the logger adds are left out). -/
inductive Event (G D : Type) where
  | GetCurrentRepoPath (path : String) (err : Option GoError)
  | NewGitService (path : String) (svc : G)
  | OnCommitHook (recv : G) (err : Option GoError)
  | GetCommitDiff (recv : G) (hash : String) (diff : D) (err : Option GoError)
  | GetLatestCommitDiff (recv : G) (diff : D) (err : Option GoError)
  | PrintCommitDiff (recv : G) (diff : D)
  | Log (msg : String)
  | Fatal (msg : String)
  deriving DecidableEq

/-- The state threaded through a run. -/
structure RunState (W G D : Type) where
  trace : List (Event G D)
  world : W

/-- Programs over the run state.  A program either returns a value or stops
the process with an exit status; the state reached is kept in both cases. -/
def Prog (W G D : Type) (α : Type) : Type :=
  RunState W G D → Except Nat α × RunState W G D

/-- Sequencing: the rest of the program runs only if the first part returned. -/
def Prog.bind {W G D α β : Type} (x : Prog W G D α) (f : α → Prog W G D β) : Prog W G D β :=
  fun s =>
    match x s with
    | (Except.ok a, s1) => f a s1
    | (Except.error c, s1) => (Except.error c, s1)

instance {W G D : Type} : Monad (Prog W G D) where
  pure a := fun s => (Except.ok a, s)
  bind := Prog.bind

/-- The call `os.Exit(c)`: nothing after it runs. -/
def osExit {W G D α : Type} (c : Nat) : Prog W G D α :=
  fun s => (Except.error c, s)

/-- Append one entry to the trace. -/
def emit {W G D : Type} (e : Event G D) : Prog W G D Unit :=
  fun s => (Except.ok (), { s with trace := s.trace ++ [e] })

/-- The functions `log.Println` and `log.Printf`: write the message, continue. -/
def logPrint {W G D : Type} (msg : String) : Prog W G D Unit :=
  emit (Event.Log msg)

/-- The function `log.Fatalf`: write the message, then `os.Exit(1)`. -/
def logFatalf {W G D α : Type} (msg : String) : Prog W G D α := do
  emit (Event.Fatal msg)
  osExit 1

/-- Perform a collaborator operation on the current world and record it. -/
def perform {W G D α : Type} (op : W → α × W) (ev : α → Event G D) : Prog W G D α :=
  fun s =>
    let r := op s.world
    (Except.ok r.1, { trace := s.trace ++ [ev r.1], world := r.2 })

/-- The call `services.GetCurrentRepoPath()`. -/
def callGetCurrentRepoPath {W G D : Type} (S : Services W G D) :
    Prog W G D (String × Option GoError) :=
  perform S.GetCurrentRepoPath fun r => Event.GetCurrentRepoPath r.1 r.2

/-- The call `services.NewGitService(path)`. -/
def callNewGitService {W G D : Type} (S : Services W G D) (path : String) : Prog W G D G :=
  perform (S.NewGitService path) fun g => Event.NewGitService path g

/-- The call `gitService.OnCommitHook()`. -/
def callOnCommitHook {W G D : Type} (S : Services W G D) (g : G) :
    Prog W G D (Option GoError) :=
  perform (S.OnCommitHook g) fun r => Event.OnCommitHook g r

/-- The call `gitService.GetCommitDiff(hash)`. -/
def callGetCommitDiff {W G D : Type} (S : Services W G D) (g : G) (hash : String) :
    Prog W G D (D × Option GoError) :=
  perform (S.GetCommitDiff g hash) fun r => Event.GetCommitDiff g hash r.1 r.2

/-- The call `gitService.GetLatestCommitDiff()`. -/
def callGetLatestCommitDiff {W G D : Type} (S : Services W G D) (g : G) :
    Prog W G D (D × Option GoError) :=
  perform (S.GetLatestCommitDiff g) fun r => Event.GetLatestCommitDiff g r.1 r.2

/-- The call `gitService.PrintCommitDiff(d)`, which returns nothing. -/
def callPrintCommitDiff {W G D : Type} (S : Services W G D) (g : G) (d : D) :
    Prog W G D Unit :=
  perform (fun w => ((), S.PrintCommitDiff g d w)) fun _ => Event.PrintCommitDiff g d

/-- The function `main` of main.go, lines 18-58, statement by statement. -/
def main {W G D : Type} (S : Services W G D) (fl : Flags) : Prog W G D Unit := do
  -- lines 19-29: determine repository path
  let mut gitRepoPath : String := ""
  if fl.repoPath ≠ "" then
    gitRepoPath := fl.repoPath
  else
    let (p, err) ← callGetCurrentRepoPath S
    gitRepoPath := p
    if let some e := err then
      logFatalf ("❌ Error finding git repository: " ++ e.Error)
  -- line 32: create git service
  let gitService ← callNewGitService S gitRepoPath
  if fl.hookMode then
    -- lines 35-39: hook mode
    logPrint "🎯 Running git commit analysis hook..."
    if let some e ← callOnCommitHook S gitService then
      logFatalf ("❌ Hook execution failed: " ++ e.Error)
  else if fl.commitHash ≠ "" then
    -- lines 41-47: specific commit
    logPrint ("🔍 Analyzing commit: " ++ fl.commitHash)
    let (commitDiff, err) ← callGetCommitDiff S gitService fl.commitHash
    if let some e := err then
      logFatalf ("❌ Error getting commit diff: " ++ e.Error)
    callPrintCommitDiff S gitService commitDiff
  else
    -- lines 49-55: latest commit
    logPrint "🔍 Analyzing latest commit..."
    let (commitDiff, err) ← callGetLatestCommitDiff S gitService
    if let some e := err then
      logFatalf ("❌ Error getting latest commit diff: " ++ e.Error)
    callPrintCommitDiff S gitService commitDiff
  -- line 58
  logPrint "✅ Analysis complete!"

/-- What a finished process leaves behind. -/
structure Outcome (W G D : Type) where
  trace : List (Event G D)
  exit : Nat
  world : W

/-- Run `main` from an empty trace: returning from `main` is exit status 0, a
fatal log is the status it passed to `os.Exit`. -/
def run {W G D : Type} (S : Services W G D) (fl : Flags) (w : W) : Outcome W G D :=
  match main S fl { trace := [], world := w } with
  | (Except.ok _, s) => { trace := s.trace, exit := 0, world := s.world }
  | (Except.error c, s) => { trace := s.trace, exit := c, world := s.world }

/-! ### Observations on traces -/

def isGetCurrentRepoPath {G D : Type} : Event G D → Bool
  | .GetCurrentRepoPath _ _ => true
  | _ => false

def isNewGitService {G D : Type} : Event G D → Bool
  | .NewGitService _ _ => true
  | _ => false

def isOnCommitHook {G D : Type} : Event G D → Bool
  | .OnCommitHook _ _ => true
  | _ => false

def isGetCommitDiff {G D : Type} : Event G D → Bool
  | .GetCommitDiff _ _ _ _ => true
  | _ => false

def isGetLatestCommitDiff {G D : Type} : Event G D → Bool
  | .GetLatestCommitDiff _ _ _ => true
  | _ => false

def isPrintCommitDiff {G D : Type} : Event G D → Bool
  | .PrintCommitDiff _ _ => true
  | _ => false

/-- Any of the six collaborator operations. -/
def isCollaboratorCall {G D : Type} : Event G D → Bool
  | .Log _ => false
  | .Fatal _ => false
  | _ => true

def isFatal {G D : Type} : Event G D → Bool
  | .Fatal _ => true
  | _ => false

/-- The error a call returned, `none` for nil and for entries without one. -/
def errOf {G D : Type} : Event G D → Option GoError
  | .GetCurrentRepoPath _ err => err
  | .OnCommitHook _ err => err
  | .GetCommitDiff _ _ _ err => err
  | .GetLatestCommitDiff _ _ err => err
  | _ => none

/-- The entry is a collaborator call that returned a non-nil error. -/
def failed {G D : Type} (ev : Event G D) : Bool :=
  (errOf ev).isSome

/-- The message of a log entry, fatal or not. -/
def logged {G D : Type} : Event G D → Option String
  | .Log msg => some msg
  | .Fatal msg => some msg
  | _ => none

/-- The confirmation line of main.go line 58. -/
def completeMsg : String := "✅ Analysis complete!"

/-- The entry logs exactly the confirmation line, through whichever log call. -/
def isComplete {G D : Type} (ev : Event G D) : Bool :=
  decide (logged ev = some completeMsg)

/-- Arguments of the calls of `NewGitService`, in order. -/
def newGitServiceArgs {G D : Type} (tr : List (Event G D)) : List String :=
  tr.filterMap fun
    | .NewGitService path _ => some path
    | _ => none

/-- Arguments of the calls of `GetCommitDiff`, in order. -/
def getCommitDiffArgs {G D : Type} (tr : List (Event G D)) : List String :=
  tr.filterMap fun
    | .GetCommitDiff _ hash _ _ => some hash
    | _ => none

/-- Arguments of the calls of `PrintCommitDiff`, in order. -/
def printedDiffs {G D : Type} (tr : List (Event G D)) : List D :=
  tr.filterMap fun
    | .PrintCommitDiff _ d => some d
    | _ => none

/-- Number of calls of the three mode operations. -/
def modeCalls {G D : Type} (tr : List (Event G D)) : Nat :=
  tr.countP isOnCommitHook + tr.countP isGetCommitDiff + tr.countP isGetLatestCommitDiff

/-- Repository resolution succeeds: the flag names a path, or discovery, which
then runs on the initial world, returns a nil error. -/
def ResolutionSucceeds {W G D : Type} (S : Services W G D) (fl : Flags) (w : W) : Prop :=
  fl.repoPath ≠ "" ∨ (S.GetCurrentRepoPath w).1.2 = none

/-- The fixed text in front of the error in a fatal message, by the call that failed. -/
def fatalLead {G D : Type} : Event G D → String
  | .GetCurrentRepoPath _ _ => "❌ Error finding git repository: "
  | .OnCommitHook _ _ => "❌ Hook execution failed: "
  | .GetCommitDiff _ _ _ _ => "❌ Error getting commit diff: "
  | .GetLatestCommitDiff _ _ _ => "❌ Error getting latest commit diff: "
  | _ => ""

/-- How the path handed to `NewGitService` came about: `pre` is the trace up
to that point and `w1` the world reached. -/
def Resolved {W G D : Type} (S : Services W G D) (fl : Flags) (w : W)
    (pre : List (Event G D)) (path : String) (w1 : W) : Prop :=
  (fl.repoPath ≠ "" ∧ pre = [] ∧ path = fl.repoPath ∧ w1 = w) ∨
  (fl.repoPath = "" ∧ S.GetCurrentRepoPath w = ((path, none), w1) ∧
    pre = [Event.GetCurrentRepoPath path none])

/-- The seven ways through `main`, as a relation between the inputs of a run
and its outcome. -/
inductive RunShape {W G D : Type} (S : Services W G D) (fl : Flags) (w : W) :
    Outcome W G D → Prop where
  | discoverFail (p : String) (e : GoError) (w1 : W) :
      fl.repoPath = "" → S.GetCurrentRepoPath w = ((p, some e), w1) →
      RunShape S fl w ⟨[.GetCurrentRepoPath p (some e),
        .Fatal ("❌ Error finding git repository: " ++ e.Error)], 1, w1⟩
  | hookOk (pre : List (Event G D)) (path : String) (w1 : W) (g : G) (w2 w3 : W) :
      Resolved S fl w pre path w1 → S.NewGitService path w1 = (g, w2) →
      fl.hookMode = true → S.OnCommitHook g w2 = (none, w3) →
      RunShape S fl w ⟨pre ++ [.NewGitService path g,
        .Log "🎯 Running git commit analysis hook...", .OnCommitHook g none,
        .Log "✅ Analysis complete!"], 0, w3⟩
  | hookFail (pre : List (Event G D)) (path : String) (w1 : W) (g : G) (w2 : W)
      (e : GoError) (w3 : W) :
      Resolved S fl w pre path w1 → S.NewGitService path w1 = (g, w2) →
      fl.hookMode = true → S.OnCommitHook g w2 = (some e, w3) →
      RunShape S fl w ⟨pre ++ [.NewGitService path g,
        .Log "🎯 Running git commit analysis hook...", .OnCommitHook g (some e),
        .Fatal ("❌ Hook execution failed: " ++ e.Error)], 1, w3⟩
  | commitOk (pre : List (Event G D)) (path : String) (w1 : W) (g : G) (w2 : W)
      (d : D) (w3 : W) :
      Resolved S fl w pre path w1 → S.NewGitService path w1 = (g, w2) →
      fl.hookMode = false → fl.commitHash ≠ "" →
      S.GetCommitDiff g fl.commitHash w2 = ((d, none), w3) →
      RunShape S fl w ⟨pre ++ [.NewGitService path g,
        .Log ("🔍 Analyzing commit: " ++ fl.commitHash),
        .GetCommitDiff g fl.commitHash d none, .PrintCommitDiff g d,
        .Log "✅ Analysis complete!"], 0, S.PrintCommitDiff g d w3⟩
  | commitFail (pre : List (Event G D)) (path : String) (w1 : W) (g : G) (w2 : W)
      (d : D) (e : GoError) (w3 : W) :
      Resolved S fl w pre path w1 → S.NewGitService path w1 = (g, w2) →
      fl.hookMode = false → fl.commitHash ≠ "" →
      S.GetCommitDiff g fl.commitHash w2 = ((d, some e), w3) →
      RunShape S fl w ⟨pre ++ [.NewGitService path g,
        .Log ("🔍 Analyzing commit: " ++ fl.commitHash),
        .GetCommitDiff g fl.commitHash d (some e),
        .Fatal ("❌ Error getting commit diff: " ++ e.Error)], 1, w3⟩
  | latestOk (pre : List (Event G D)) (path : String) (w1 : W) (g : G) (w2 : W)
      (d : D) (w3 : W) :
      Resolved S fl w pre path w1 → S.NewGitService path w1 = (g, w2) →
      fl.hookMode = false → fl.commitHash = "" →
      S.GetLatestCommitDiff g w2 = ((d, none), w3) →
      RunShape S fl w ⟨pre ++ [.NewGitService path g, .Log "🔍 Analyzing latest commit...",
        .GetLatestCommitDiff g d none, .PrintCommitDiff g d,
        .Log "✅ Analysis complete!"], 0, S.PrintCommitDiff g d w3⟩
  | latestFail (pre : List (Event G D)) (path : String) (w1 : W) (g : G) (w2 : W)
      (d : D) (e : GoError) (w3 : W) :
      Resolved S fl w pre path w1 → S.NewGitService path w1 = (g, w2) →
      fl.hookMode = false → fl.commitHash = "" →
      S.GetLatestCommitDiff g w2 = ((d, some e), w3) →
      RunShape S fl w ⟨pre ++ [.NewGitService path g, .Log "🔍 Analyzing latest commit...",
        .GetLatestCommitDiff g d (some e),
        .Fatal ("❌ Error getting latest commit diff: " ++ e.Error)], 1, w3⟩

/-! ### A concrete collaborator used for evaluation -/

/-- A small collaborator for evaluation: the world counts the calls made so
far, each flag makes one operation fail, and the diff of a commit is a text
naming its hash. -/
def demo (failDiscover failHook failGet failLatest : Bool) : Services Nat String String where
  GetCurrentRepoPath := fun w =>
    (if failDiscover then ("", some ⟨"not a git repository"⟩) else ("/work/repo", none), w + 1)
  NewGitService := fun p w => ("svc:" ++ p, w + 1)
  OnCommitHook := fun _ w => (if failHook then some ⟨"hook broke"⟩ else none, w + 1)
  GetCommitDiff := fun _ h w =>
    (if failGet then ("", some ⟨"unknown revision"⟩) else ("diff of " ++ h, none), w + 1)
  GetLatestCommitDiff := fun _ w =>
    (if failLatest then ("", some ⟨"no commits"⟩) else ("diff of HEAD", none), w + 1)
  PrintCommitDiff := fun _ _ w => w + 1


/-- Hook mode with a commit given as well; the path is discovered. -/
def flagsHook : Flags := { repoPath := "", commitHash := "abc123", hookMode := true }

/-- Specific-commit mode on an explicit path. -/
def flagsCommit : Flags := { repoPath := "/some/path", commitHash := "abc123", hookMode := false }

/-- Latest-commit mode; the path is discovered. -/
def flagsLatest : Flags := { repoPath := "", commitHash := "", hookMode := false }

/-- The collaborator whose calls all succeed. -/
def demoOk : Services Nat String String := demo false false false false

/-- The collaborator whose repository discovery fails. -/
def demoNoRepo : Services Nat String String := demo true false false false

/-- The collaborator whose hook handler fails. -/
def demoHookFails : Services Nat String String := demo false true false false

/-- The collaborator whose specific-commit retrieval fails. -/
def demoGetFails : Services Nat String String := demo false false true false

/-! ### Stepping through `main` -/

theorem bind_apply {W G D α β : Type} (x : Prog W G D α) (f : α → Prog W G D β)
    (s : RunState W G D) :
    (x >>= f) s = match x s with
      | (Except.ok a, s1) => f a s1
      | (Except.error c, s1) => (Except.error c, s1) := rfl

theorem pure_apply {W G D α : Type} (a : α) (s : RunState W G D) :
    (pure a : Prog W G D α) s = (Except.ok a, s) := rfl

/-- Every run of `main` has one of the seven shapes. -/
theorem run_shape {W G D : Type} (S : Services W G D) (fl : Flags) (w : W) :
    RunShape S fl w (run S fl w) := by
  by_cases hr : fl.repoPath = ""
  · rcases h1 : S.GetCurrentRepoPath w with ⟨⟨p, _ | e⟩, w1⟩
    · rcases h2 : S.NewGitService p w1 with ⟨g, w2⟩
      have hres : Resolved S fl w [Event.GetCurrentRepoPath p none] p w1 := Or.inr ⟨hr, h1, rfl⟩
      cases hh : fl.hookMode
      · by_cases hc : fl.commitHash = ""
        · rcases h3 : S.GetLatestCommitDiff g w2 with ⟨⟨d, _ | e⟩, w3⟩
          · have key := RunShape.latestOk _ _ _ _ _ _ _ hres h2 hh hc h3
            simpa [run, main, callGetCurrentRepoPath, callNewGitService, callOnCommitHook,
              callGetCommitDiff, callGetLatestCommitDiff, callPrintCommitDiff, perform,
              logPrint, logFatalf, emit, osExit, bind_apply, pure_apply,
              hr, h1, h2, hh, hc, h3] using key
          · have key := RunShape.latestFail _ _ _ _ _ _ _ _ hres h2 hh hc h3
            simpa [run, main, callGetCurrentRepoPath, callNewGitService, callOnCommitHook,
              callGetCommitDiff, callGetLatestCommitDiff, callPrintCommitDiff, perform,
              logPrint, logFatalf, emit, osExit, bind_apply, pure_apply,
              hr, h1, h2, hh, hc, h3] using key
        · rcases h3 : S.GetCommitDiff g fl.commitHash w2 with ⟨⟨d, _ | e⟩, w3⟩
          · have key := RunShape.commitOk _ _ _ _ _ _ _ hres h2 hh hc h3
            simpa [run, main, callGetCurrentRepoPath, callNewGitService, callOnCommitHook,
              callGetCommitDiff, callGetLatestCommitDiff, callPrintCommitDiff, perform,
              logPrint, logFatalf, emit, osExit, bind_apply, pure_apply,
              hr, h1, h2, hh, hc, h3] using key
          · have key := RunShape.commitFail _ _ _ _ _ _ _ _ hres h2 hh hc h3
            simpa [run, main, callGetCurrentRepoPath, callNewGitService, callOnCommitHook,
              callGetCommitDiff, callGetLatestCommitDiff, callPrintCommitDiff, perform,
              logPrint, logFatalf, emit, osExit, bind_apply, pure_apply,
              hr, h1, h2, hh, hc, h3] using key
      · rcases h3 : S.OnCommitHook g w2 with ⟨_ | e, w3⟩
        · have key := RunShape.hookOk _ _ _ _ _ _ hres h2 hh h3
          simpa [run, main, callGetCurrentRepoPath, callNewGitService, callOnCommitHook,
            callGetCommitDiff, callGetLatestCommitDiff, callPrintCommitDiff, perform,
            logPrint, logFatalf, emit, osExit, bind_apply, pure_apply,
            hr, h1, h2, hh, h3] using key
        · have key := RunShape.hookFail _ _ _ _ _ _ _ hres h2 hh h3
          simpa [run, main, callGetCurrentRepoPath, callNewGitService, callOnCommitHook,
            callGetCommitDiff, callGetLatestCommitDiff, callPrintCommitDiff, perform,
            logPrint, logFatalf, emit, osExit, bind_apply, pure_apply,
            hr, h1, h2, hh, h3] using key
    · have key := RunShape.discoverFail _ _ _ hr h1
      simpa [run, main, callGetCurrentRepoPath, callNewGitService, callOnCommitHook,
        callGetCommitDiff, callGetLatestCommitDiff, callPrintCommitDiff, perform,
        logPrint, logFatalf, emit, osExit, bind_apply, pure_apply,
        hr, h1] using key
  · rcases h2 : S.NewGitService fl.repoPath w with ⟨g, w2⟩
    have hres : Resolved S fl w [] fl.repoPath w := Or.inl ⟨hr, rfl, rfl, rfl⟩
    cases hh : fl.hookMode
    · by_cases hc : fl.commitHash = ""
      · rcases h3 : S.GetLatestCommitDiff g w2 with ⟨⟨d, _ | e⟩, w3⟩
        · have key := RunShape.latestOk _ _ _ _ _ _ _ hres h2 hh hc h3
          simpa [run, main, callGetCurrentRepoPath, callNewGitService, callOnCommitHook,
            callGetCommitDiff, callGetLatestCommitDiff, callPrintCommitDiff, perform,
            logPrint, logFatalf, emit, osExit, bind_apply, pure_apply,
            hr, h2, hh, hc, h3] using key
        · have key := RunShape.latestFail _ _ _ _ _ _ _ _ hres h2 hh hc h3
          simpa [run, main, callGetCurrentRepoPath, callNewGitService, callOnCommitHook,
            callGetCommitDiff, callGetLatestCommitDiff, callPrintCommitDiff, perform,
            logPrint, logFatalf, emit, osExit, bind_apply, pure_apply,
            hr, h2, hh, hc, h3] using key
      · rcases h3 : S.GetCommitDiff g fl.commitHash w2 with ⟨⟨d, _ | e⟩, w3⟩
        · have key := RunShape.commitOk _ _ _ _ _ _ _ hres h2 hh hc h3
          simpa [run, main, callGetCurrentRepoPath, callNewGitService, callOnCommitHook,
            callGetCommitDiff, callGetLatestCommitDiff, callPrintCommitDiff, perform,
            logPrint, logFatalf, emit, osExit, bind_apply, pure_apply,
            hr, h2, hh, hc, h3] using key
        · have key := RunShape.commitFail _ _ _ _ _ _ _ _ hres h2 hh hc h3
          simpa [run, main, callGetCurrentRepoPath, callNewGitService, callOnCommitHook,
            callGetCommitDiff, callGetLatestCommitDiff, callPrintCommitDiff, perform,
            logPrint, logFatalf, emit, osExit, bind_apply, pure_apply,
            hr, h2, hh, hc, h3] using key
    · rcases h3 : S.OnCommitHook g w2 with ⟨_ | e, w3⟩
      · have key := RunShape.hookOk _ _ _ _ _ _ hres h2 hh h3
        simpa [run, main, callGetCurrentRepoPath, callNewGitService, callOnCommitHook,
          callGetCommitDiff, callGetLatestCommitDiff, callPrintCommitDiff, perform,
          logPrint, logFatalf, emit, osExit, bind_apply, pure_apply,
          hr, h2, hh, h3] using key
      · have key := RunShape.hookFail _ _ _ _ _ _ _ hres h2 hh h3
        simpa [run, main, callGetCurrentRepoPath, callNewGitService, callOnCommitHook,
          callGetCommitDiff, callGetLatestCommitDiff, callPrintCommitDiff, perform,
          logPrint, logFatalf, emit, osExit, bind_apply, pure_apply,
          hr, h2, hh, h3] using key


/-! ### Log messages are told apart by how they start -/

theorem append_ne_of_lead {p s t : String} (h : ¬ p.data <+: t.data) : p ++ s ≠ t := by
  intro e
  apply h
  rw [← e, String.data_append]
  exact List.prefix_append _ _

theorem analyzing_ne_complete (h : String) : "🔍 Analyzing commit: " ++ h ≠ completeMsg :=
  append_ne_of_lead (by decide)

theorem discover_ne_complete (s : String) :
    "❌ Error finding git repository: " ++ s ≠ completeMsg :=
  append_ne_of_lead (by decide)

theorem hook_ne_complete (s : String) : "❌ Hook execution failed: " ++ s ≠ completeMsg :=
  append_ne_of_lead (by decide)

theorem commit_ne_complete (s : String) : "❌ Error getting commit diff: " ++ s ≠ completeMsg :=
  append_ne_of_lead (by decide)

theorem latest_ne_complete (s : String) :
    "❌ Error getting latest commit diff: " ++ s ≠ completeMsg :=
  append_ne_of_lead (by decide)

theorem hookLine_ne_complete : "🎯 Running git commit analysis hook..." ≠ completeMsg := by
  decide

theorem latestLine_ne_complete : "🔍 Analyzing latest commit..." ≠ completeMsg := by
  decide

theorem isComplete_log {G D : Type} (m : String) :
    isComplete (Event.Log m : Event G D) = decide (m = completeMsg) := by
  simp [isComplete, logged]

theorem isComplete_fatal {G D : Type} (m : String) :
    isComplete (Event.Fatal m : Event G D) = decide (m = completeMsg) := by
  simp [isComplete, logged]

/-! ### How a run ends -/

/-- A run either returns from `main` with the confirmation line as its last
entry, or stops right after the first failed call with the fatal line for that
call.  Before that point no call has failed and nothing fatal or confirming has
been logged. -/
theorem run_ends {W G D : Type} (S : Services W G D) (fl : Flags) (w : W) :
    ((run S fl w).exit = 0 ∧ ∃ body, (run S fl w).trace = body ++ [Event.Log completeMsg] ∧
      ∀ x ∈ body, failed x = false ∧ isFatal x = false ∧ isComplete x = false) ∨
    ((run S fl w).exit = 1 ∧ ∃ good ev e,
      (run S fl w).trace = good ++ [ev, Event.Fatal (fatalLead ev ++ e.Error)] ∧
      errOf ev = some e ∧
      ∀ x ∈ good, failed x = false ∧ isFatal x = false ∧ isComplete x = false) := by
  have h := run_shape S fl w
  generalize run S fl w = o at h ⊢
  cases h with
  | discoverFail p e w1 hr h1 =>
    exact Or.inr ⟨rfl, [], .GetCurrentRepoPath p (some e), e, rfl, rfl, by simp⟩
  | hookOk pre path w1 g w2 w3 hR h2 hh h3 =>
    refine Or.inl ⟨rfl, pre ++ [.NewGitService path g,
      .Log "🎯 Running git commit analysis hook...", .OnCommitHook g none],
      by simp [completeMsg], ?_⟩
    obtain ⟨_, rfl, rfl, rfl⟩ | ⟨_, _, rfl⟩ := hR <;>
      simp [failed, errOf, isFatal, isComplete, logged, hookLine_ne_complete]
  | hookFail pre path w1 g w2 e w3 hR h2 hh h3 =>
    refine Or.inr ⟨rfl, pre ++ [.NewGitService path g,
      .Log "🎯 Running git commit analysis hook..."], .OnCommitHook g (some e), e,
      by simp [fatalLead], rfl, ?_⟩
    obtain ⟨_, rfl, rfl, rfl⟩ | ⟨_, _, rfl⟩ := hR <;>
      simp [failed, errOf, isFatal, isComplete, logged, hookLine_ne_complete]
  | commitOk pre path w1 g w2 d w3 hR h2 hh hc h3 =>
    refine Or.inl ⟨rfl, pre ++ [.NewGitService path g,
      .Log ("🔍 Analyzing commit: " ++ fl.commitHash), .GetCommitDiff g fl.commitHash d none,
      .PrintCommitDiff g d], by simp [completeMsg], ?_⟩
    obtain ⟨_, rfl, rfl, rfl⟩ | ⟨_, _, rfl⟩ := hR <;>
      simp [failed, errOf, isFatal, isComplete, logged, analyzing_ne_complete]
  | commitFail pre path w1 g w2 d e w3 hR h2 hh hc h3 =>
    refine Or.inr ⟨rfl, pre ++ [.NewGitService path g,
      .Log ("🔍 Analyzing commit: " ++ fl.commitHash)], .GetCommitDiff g fl.commitHash d (some e),
      e, by simp [fatalLead], rfl, ?_⟩
    obtain ⟨_, rfl, rfl, rfl⟩ | ⟨_, _, rfl⟩ := hR <;>
      simp [failed, errOf, isFatal, isComplete, logged, analyzing_ne_complete]
  | latestOk pre path w1 g w2 d w3 hR h2 hh hc h3 =>
    refine Or.inl ⟨rfl, pre ++ [.NewGitService path g, .Log "🔍 Analyzing latest commit...",
      .GetLatestCommitDiff g d none, .PrintCommitDiff g d], by simp [completeMsg], ?_⟩
    obtain ⟨_, rfl, rfl, rfl⟩ | ⟨_, _, rfl⟩ := hR <;>
      simp [failed, errOf, isFatal, isComplete, logged, latestLine_ne_complete]
  | latestFail pre path w1 g w2 d e w3 hR h2 hh hc h3 =>
    refine Or.inr ⟨rfl, pre ++ [.NewGitService path g, .Log "🔍 Analyzing latest commit..."],
      .GetLatestCommitDiff g d (some e), e, by simp [fatalLead], rfl, ?_⟩
    obtain ⟨_, rfl, rfl, rfl⟩ | ⟨_, _, rfl⟩ := hR <;>
      simp [failed, errOf, isFatal, isComplete, logged, latestLine_ne_complete]

/-! ### Splitting a trace at an entry -/

/-- If only the last entry of a list can satisfy `p`, an entry satisfying `p`
is that last entry. -/
theorem split_last {α : Type} (p : α → Bool) (l : α) :
    ∀ (body pre : List α) (ev : α) (post : List α), (∀ x ∈ body, p x = false) →
      body ++ [l] = pre ++ ev :: post → p ev = true → ev = l ∧ post = [] := by
  intro body
  induction body with
  | nil =>
    intro pre ev post _ heq _
    rcases pre with _ | ⟨a, pre⟩
    · simpa [eq_comm] using heq
    · simp at heq
  | cons a body ih =>
    intro pre ev post hbody heq hp
    rcases pre with _ | ⟨b, pre⟩
    · simp only [List.nil_append, List.cons_append, List.cons.injEq] at heq
      have := (hbody a (List.mem_cons_self _ _))
      rw [heq.1] at this
      simp [this] at hp
    · simp only [List.cons_append, List.cons.injEq] at heq
      exact ih pre ev post (fun x hx => hbody x (List.mem_cons_of_mem _ hx)) heq.2 hp

/-- If only the last two entries of a list can satisfy `p`, an entry
satisfying `p` is one of them. -/
theorem split_tail {α : Type} (p : α → Bool) (e f : α) :
    ∀ (good pre : List α) (ev : α) (post : List α), (∀ x ∈ good, p x = false) →
      good ++ [e, f] = pre ++ ev :: post → p ev = true →
      (ev = e ∧ post = [f]) ∨ (ev = f ∧ post = []) := by
  intro good
  induction good with
  | nil =>
    intro pre ev post _ heq hp
    rcases pre with _ | ⟨a, pre⟩
    · left
      simpa [eq_comm] using heq
    · right
      simp only [List.nil_append, List.cons_append, List.cons.injEq] at heq
      exact split_last p f [] pre ev post (by simp) heq.2 hp
  | cons a good ih =>
    intro pre ev post hgood heq hp
    rcases pre with _ | ⟨b, pre⟩
    · simp only [List.nil_append, List.cons_append, List.cons.injEq] at heq
      have := (hgood a (List.mem_cons_self _ _))
      rw [heq.1] at this
      simp [this] at hp
    · simp only [List.cons_append, List.cons.injEq] at heq
      exact ih pre ev post (fun x hx => hgood x (List.mem_cons_of_mem _ hx)) heq.2 hp

theorem failed_of_errOf {G D : Type} {ev : Event G D} {e : GoError} (h : errOf ev = some e) :
    failed ev = true := by
  simp [failed, h]

theorem not_fatal_of_errOf {G D : Type} {ev : Event G D} {e : GoError}
    (h : errOf ev = some e) : isFatal ev = false := by
  cases ev <;> simp_all [errOf, isFatal]

theorem not_complete_of_errOf {G D : Type} {ev : Event G D} {e : GoError}
    (h : errOf ev = some e) : isComplete ev = false := by
  cases ev <;> simp_all [errOf, isComplete, logged]

/-- Only the four fallible operations can fail. -/
theorem kind_of_failed {G D : Type} {ev : Event G D} (h : failed ev = true) :
    isGetCurrentRepoPath ev = true ∨ isOnCommitHook ev = true ∨
      isGetCommitDiff ev = true ∨ isGetLatestCommitDiff ev = true := by
  cases ev <;> simp_all [failed, errOf, isGetCurrentRepoPath, isOnCommitHook, isGetCommitDiff,
    isGetLatestCommitDiff]

/-- A run with a failed call exits with status 1. -/
theorem exit_of_failed {W G D : Type} (S : Services W G D) (fl : Flags) (w : W)
    (h : ∃ ev ∈ (run S fl w).trace, failed ev = true) : (run S fl w).exit = 1 := by
  rcases run_ends S fl w with ⟨_, body, hb, hall⟩ | ⟨hx, _⟩
  · obtain ⟨ev, hev, hf⟩ := h
    rw [hb, List.mem_append] at hev
    rcases hev with hev | hev
    · rw [(hall ev hev).1] at hf
      cases hf
    · rw [List.mem_singleton.1 hev] at hf
      simp [failed, errOf] at hf
  · exact hx

/-- A run without a failed call exits with status 0. -/
theorem exit_of_no_failed {W G D : Type} (S : Services W G D) (fl : Flags) (w : W)
    (h : ∀ ev ∈ (run S fl w).trace, failed ev = false) : (run S fl w).exit = 0 := by
  rcases run_ends S fl w with ⟨hx, _⟩ | ⟨_, good, e1, e, hg, he, _⟩
  · exact hx
  · have := h e1 (by rw [hg]; simp)
    rw [failed_of_errOf he] at this
    cases this

/-- The confirmation line is logged once in a run that exits with 0. -/
theorem complete_count_of_exit_zero {W G D : Type} (S : Services W G D) (fl : Flags) (w : W)
    (h : (run S fl w).exit = 0) : (run S fl w).trace.countP isComplete = 1 := by
  rcases run_ends S fl w with ⟨_, body, hb, hall⟩ | ⟨hx, _⟩
  · have h0 : body.countP isComplete = 0 :=
      List.countP_eq_zero.2 fun x hx => by simp [(hall x hx).2.2]
    rw [hb, List.countP_append, h0]
    simp [isComplete, logged]
  · omega

/-- The confirmation line is never logged in a run that exits with 1. -/
theorem complete_count_of_exit_one {W G D : Type} (S : Services W G D) (fl : Flags) (w : W)
    (h : (run S fl w).exit = 1) : (run S fl w).trace.countP isComplete = 0 := by
  rcases run_ends S fl w with ⟨hx, _⟩ | ⟨_, good, e1, e, hg, he, hall⟩
  · omega
  · rw [hg]
    refine List.countP_eq_zero.2 fun x hx => ?_
    rw [List.mem_append] at hx
    rcases hx with hx | hx
    · simp [(hall x hx).2.2]
    · simp only [List.mem_cons, List.mem_singleton, List.not_mem_nil, or_false] at hx
      rcases hx with rfl | rfl
      · simp [not_complete_of_errOf he]
      · have hk := kind_of_failed (failed_of_errOf he)
        cases e1 <;> simp [isGetCurrentRepoPath, isOnCommitHook, isGetCommitDiff,
          isGetLatestCommitDiff] at hk <;>
          simp [fatalLead, isComplete_fatal, discover_ne_complete, hook_ne_complete,
            commit_ne_complete, latest_ne_complete]

/-! ### Mode dispatch -/

/-- C1: with the hook flag set and the repository resolved, `OnCommitHook` is
called exactly once and `GetCommitDiff`, `GetLatestCommitDiff` and
`PrintCommitDiff` are never called, whatever the repo and commit flags and
whatever the collaborator does. -/
theorem hook_mode_runs_only_hook {W G D : Type} (S : Services W G D) (fl : Flags) (w : W)
    (hhook : fl.hookMode = true) (hres : ResolutionSucceeds S fl w) :
    (run S fl w).trace.countP isOnCommitHook = 1 ∧
    (run S fl w).trace.countP isGetCommitDiff = 0 ∧
    (run S fl w).trace.countP isGetLatestCommitDiff = 0 ∧
    (run S fl w).trace.countP isPrintCommitDiff = 0 := by
  have h := run_shape S fl w
  generalize run S fl w = o at h ⊢
  cases h
  all_goals first | obtain ⟨_, rfl, rfl, rfl⟩ | ⟨_, _, rfl⟩ := ‹Resolved S fl w _ _ _› | skip
  all_goals simp_all [ResolutionSucceeds, isOnCommitHook, isGetCommitDiff,
    isGetLatestCommitDiff, isPrintCommitDiff]

theorem hook_mode_runs_only_hook_witness :
    (flagsHook.hookMode = true ∧ ResolutionSucceeds demoOk flagsHook 0) ∧
    (run demoOk flagsHook 0).trace.countP isOnCommitHook = 1 ∧
    (run demoOk flagsHook 0).trace.countP isGetCommitDiff = 0 ∧
    (run demoOk flagsHook 0).trace.countP isGetLatestCommitDiff = 0 ∧
    (run demoOk flagsHook 0).trace.countP isPrintCommitDiff = 0 :=
  ⟨⟨rfl, Or.inr rfl⟩,
    hook_mode_runs_only_hook demoOk flagsHook 0 rfl (Or.inr rfl)⟩

/-- C2: with the hook flag unset, a non-empty commit flag `h` and the
repository resolved, `GetCommitDiff` is called exactly once, with `h` itself;
`OnCommitHook` and `GetLatestCommitDiff` are never called; and when that call
returns a diff `d` with a nil error, `PrintCommitDiff` is called exactly once,
with `d`, right after the retrieval. -/
theorem specific_commit_mode {W G D : Type} (S : Services W G D) (fl : Flags) (w : W)
    (hhook : fl.hookMode = false) (hcommit : fl.commitHash ≠ "")
    (hres : ResolutionSucceeds S fl w) :
    getCommitDiffArgs (run S fl w).trace = [fl.commitHash] ∧
    (run S fl w).trace.countP isOnCommitHook = 0 ∧
    (run S fl w).trace.countP isGetLatestCommitDiff = 0 ∧
    ∃ g d err pre post,
      (run S fl w).trace = pre ++ Event.GetCommitDiff g fl.commitHash d err :: post ∧
      (err = none → printedDiffs (run S fl w).trace = [d] ∧
        ∃ rest, post = Event.PrintCommitDiff g d :: rest) := by
  have h := run_shape S fl w
  generalize run S fl w = o at h ⊢
  cases h with
  | commitOk pre path w1 g w2 d w3 hR h2 hh hc h3 =>
    refine ⟨?_, ?_, ?_, g, d, none, pre ++ [.NewGitService path g,
      .Log ("🔍 Analyzing commit: " ++ fl.commitHash)],
      [.PrintCommitDiff g d, .Log "✅ Analysis complete!"], by simp, fun _ => ⟨?_, _, rfl⟩⟩
    all_goals obtain ⟨_, rfl, rfl, rfl⟩ | ⟨_, _, rfl⟩ := hR
    all_goals simp [getCommitDiffArgs, printedDiffs, isOnCommitHook, isGetLatestCommitDiff]
  | commitFail pre path w1 g w2 d e w3 hR h2 hh hc h3 =>
    refine ⟨?_, ?_, ?_, g, d, some e, pre ++ [.NewGitService path g,
      .Log ("🔍 Analyzing commit: " ++ fl.commitHash)],
      [.Fatal ("❌ Error getting commit diff: " ++ e.Error)], by simp, fun he => by simp at he⟩
    all_goals obtain ⟨_, rfl, rfl, rfl⟩ | ⟨_, _, rfl⟩ := hR
    all_goals simp [getCommitDiffArgs, isOnCommitHook, isGetLatestCommitDiff]
  | discoverFail p e w1 hr h1 => simp_all [ResolutionSucceeds]
  | _ => simp_all

theorem specific_commit_mode_witness :
    (flagsCommit.hookMode = false ∧ flagsCommit.commitHash ≠ "" ∧
      ResolutionSucceeds demoOk flagsCommit 0) ∧
    (getCommitDiffArgs (run demoOk flagsCommit 0).trace =
        [flagsCommit.commitHash] ∧
      (run demoOk flagsCommit 0).trace.countP isOnCommitHook = 0 ∧
      (run demoOk flagsCommit 0).trace.countP isGetLatestCommitDiff = 0 ∧
      ∃ g d err pre post,
        (run demoOk flagsCommit 0).trace =
          pre ++ Event.GetCommitDiff g flagsCommit.commitHash d err :: post ∧
        (err = none →
          printedDiffs (run demoOk flagsCommit 0).trace = [d] ∧
          ∃ rest, post = Event.PrintCommitDiff g d :: rest)) ∧
    printedDiffs (run demoOk flagsCommit 0).trace = ["diff of abc123"] :=
  ⟨⟨rfl, by decide, Or.inl (by decide)⟩,
    specific_commit_mode demoOk flagsCommit 0 rfl (by decide)
      (Or.inl (by decide)), by decide⟩

/-- C3: with the hook flag unset, an empty commit flag and the repository
resolved, `GetLatestCommitDiff` is called exactly once; `OnCommitHook` and
`GetCommitDiff` are never called; and when that call returns a diff `d` with a
nil error, `PrintCommitDiff` is called exactly once, with `d`, right after the
retrieval. -/
theorem latest_commit_mode {W G D : Type} (S : Services W G D) (fl : Flags) (w : W)
    (hhook : fl.hookMode = false) (hcommit : fl.commitHash = "")
    (hres : ResolutionSucceeds S fl w) :
    (run S fl w).trace.countP isGetLatestCommitDiff = 1 ∧
    (run S fl w).trace.countP isOnCommitHook = 0 ∧
    (run S fl w).trace.countP isGetCommitDiff = 0 ∧
    ∃ g d err pre post,
      (run S fl w).trace = pre ++ Event.GetLatestCommitDiff g d err :: post ∧
      (err = none → printedDiffs (run S fl w).trace = [d] ∧
        ∃ rest, post = Event.PrintCommitDiff g d :: rest) := by
  have h := run_shape S fl w
  generalize run S fl w = o at h ⊢
  cases h with
  | latestOk pre path w1 g w2 d w3 hR h2 hh hc h3 =>
    refine ⟨?_, ?_, ?_, g, d, none, pre ++ [.NewGitService path g,
      .Log "🔍 Analyzing latest commit..."],
      [.PrintCommitDiff g d, .Log "✅ Analysis complete!"], by simp, fun _ => ⟨?_, _, rfl⟩⟩
    all_goals obtain ⟨_, rfl, rfl, rfl⟩ | ⟨_, _, rfl⟩ := hR
    all_goals simp [printedDiffs, isOnCommitHook, isGetCommitDiff, isGetLatestCommitDiff]
  | latestFail pre path w1 g w2 d e w3 hR h2 hh hc h3 =>
    refine ⟨?_, ?_, ?_, g, d, some e, pre ++ [.NewGitService path g,
      .Log "🔍 Analyzing latest commit..."],
      [.Fatal ("❌ Error getting latest commit diff: " ++ e.Error)], by simp,
      fun he => by simp at he⟩
    all_goals obtain ⟨_, rfl, rfl, rfl⟩ | ⟨_, _, rfl⟩ := hR
    all_goals simp [isOnCommitHook, isGetCommitDiff, isGetLatestCommitDiff]
  | discoverFail p e w1 hr h1 => simp_all [ResolutionSucceeds]
  | _ => simp_all

theorem latest_commit_mode_witness :
    (flagsLatest.hookMode = false ∧ flagsLatest.commitHash = "" ∧
      ResolutionSucceeds demoOk flagsLatest 0) ∧
    ((run demoOk flagsLatest 0).trace.countP isGetLatestCommitDiff = 1 ∧
      (run demoOk flagsLatest 0).trace.countP isOnCommitHook = 0 ∧
      (run demoOk flagsLatest 0).trace.countP isGetCommitDiff = 0 ∧
      ∃ g d err pre post,
        (run demoOk flagsLatest 0).trace =
          pre ++ Event.GetLatestCommitDiff g d err :: post ∧
        (err = none →
          printedDiffs (run demoOk flagsLatest 0).trace = [d] ∧
          ∃ rest, post = Event.PrintCommitDiff g d :: rest)) ∧
    printedDiffs (run demoOk flagsLatest 0).trace = ["diff of HEAD"] :=
  ⟨⟨rfl, rfl, Or.inr rfl⟩,
    latest_commit_mode demoOk flagsLatest 0 rfl rfl (Or.inr rfl),
    by decide⟩

/-! ### Repository resolution -/

/-- C4: with an empty repo flag `GetCurrentRepoPath` is called exactly once
and, when it returns path `p` with a nil error, `NewGitService` is called with
exactly `p`; with a non-empty repo flag `r`, `GetCurrentRepoPath` is never
called and `NewGitService` is called with exactly `r`.  The commit and hook
flags play no part. -/
theorem repository_resolution {W G D : Type} (S : Services W G D) (fl : Flags) (w : W) :
    (fl.repoPath = "" →
      (run S fl w).trace.countP isGetCurrentRepoPath = 1 ∧
      ∀ p, (S.GetCurrentRepoPath w).1 = (p, none) →
        newGitServiceArgs (run S fl w).trace = [p]) ∧
    (fl.repoPath ≠ "" →
      (run S fl w).trace.countP isGetCurrentRepoPath = 0 ∧
      newGitServiceArgs (run S fl w).trace = [fl.repoPath]) := by
  have h := run_shape S fl w
  generalize run S fl w = o at h ⊢
  cases h
  all_goals first | obtain ⟨_, rfl, rfl, rfl⟩ | ⟨_, _, rfl⟩ := ‹Resolved S fl w _ _ _› | skip
  all_goals simp_all [newGitServiceArgs, isGetCurrentRepoPath]

theorem repository_resolution_witness :
    (flagsLatest.repoPath = "" ∧
      demoOk.GetCurrentRepoPath 0 = (("/work/repo", none), 1) ∧
      flagsCommit.repoPath ≠ "") ∧
    ((run demoOk flagsLatest 0).trace.countP isGetCurrentRepoPath = 1 ∧
      newGitServiceArgs (run demoOk flagsLatest 0).trace =
        ["/work/repo"]) ∧
    ((run demoOk flagsCommit 0).trace.countP isGetCurrentRepoPath = 0 ∧
      newGitServiceArgs (run demoOk flagsCommit 0).trace =
        ["/some/path"]) :=
  ⟨⟨rfl, rfl, by decide⟩,
    ⟨((repository_resolution demoOk flagsLatest 0).1 rfl).1,
      ((repository_resolution demoOk flagsLatest 0).1 rfl).2
        "/work/repo" rfl⟩,
    (repository_resolution demoOk flagsCommit 0).2 (by decide)⟩

/-! ### Errors -/

/-- C5: a collaborator call that returns an error is followed by the fatal log
and by nothing else, and the exit status is then not zero; nothing at all
follows a fatal log.  After a failed discovery `NewGitService`, the mode
operations and `PrintCommitDiff` are never called; after a failed retrieval
`PrintCommitDiff` is never called and the confirmation line is never logged. -/
theorem error_terminates_run {W G D : Type} (S : Services W G D) (fl : Flags) (w : W) :
    (∀ pre ev post, (run S fl w).trace = pre ++ ev :: post → failed ev = true →
      (run S fl w).exit ≠ 0 ∧ ∃ msg, post = [Event.Fatal msg]) ∧
    (∀ pre msg post, (run S fl w).trace = pre ++ Event.Fatal msg :: post → post = []) ∧
    (∀ ev ∈ (run S fl w).trace, isGetCurrentRepoPath ev = true → failed ev = true →
      (run S fl w).trace.countP isNewGitService = 0 ∧ modeCalls (run S fl w).trace = 0 ∧
      (run S fl w).trace.countP isPrintCommitDiff = 0) ∧
    (∀ ev ∈ (run S fl w).trace,
      isGetCommitDiff ev = true ∨ isGetLatestCommitDiff ev = true → failed ev = true →
      (run S fl w).trace.countP isPrintCommitDiff = 0 ∧
      (run S fl w).trace.countP isComplete = 0) := by
  refine ⟨?_, ?_, ?_, ?_⟩
  · intro pre ev post heq hf
    rcases run_ends S fl w with ⟨_, body, hb, hall⟩ | ⟨hx, good, e1, e, hg, he, hall⟩
    · rw [hb] at heq
      have := (split_last failed _ body pre ev post (fun x hx => (hall x hx).1) heq hf).1
      rw [this] at hf
      simp [failed, errOf] at hf
    · rw [hg] at heq
      rcases split_tail failed _ _ good pre ev post (fun x hx => (hall x hx).1) heq hf with
        ⟨_, hp⟩ | ⟨h1, _⟩
      · exact ⟨by omega, _, hp⟩
      · rw [h1] at hf
        simp [failed, errOf] at hf
  · intro pre msg post heq
    rcases run_ends S fl w with ⟨_, body, hb, hall⟩ | ⟨hx, good, e1, e, hg, he, hall⟩
    · rw [hb] at heq
      have := (split_last isFatal _ body pre _ post (fun x hx => (hall x hx).2.1) heq rfl).1
      simp at this
    · rw [hg] at heq
      rcases split_tail isFatal _ _ good pre _ post (fun x hx => (hall x hx).2.1) heq rfl with
        ⟨h1, _⟩ | ⟨_, hp⟩
      · rw [← h1] at he
        simp [errOf] at he
      · exact hp
  · have h := run_shape S fl w
    generalize run S fl w = o at h ⊢
    cases h
    all_goals first | obtain ⟨_, rfl, rfl, rfl⟩ | ⟨_, _, rfl⟩ := ‹Resolved S fl w _ _ _› | skip
    all_goals simp [failed, errOf, isGetCurrentRepoPath, isNewGitService, modeCalls,
      isOnCommitHook, isGetCommitDiff, isGetLatestCommitDiff, isPrintCommitDiff]
  · intro ev hev hk hf
    refine ⟨?_, complete_count_of_exit_one S fl w (exit_of_failed S fl w ⟨ev, hev, hf⟩)⟩
    revert ev
    have h := run_shape S fl w
    generalize run S fl w = o at h ⊢
    cases h
    all_goals first | obtain ⟨_, rfl, rfl, rfl⟩ | ⟨_, _, rfl⟩ := ‹Resolved S fl w _ _ _› | skip
    all_goals simp [failed, errOf, isGetCommitDiff, isGetLatestCommitDiff, isPrintCommitDiff]

theorem error_terminates_run_witness :
    ((run demoGetFails flagsCommit 0).trace =
        [Event.NewGitService "/some/path" "svc:/some/path",
          Event.Log "🔍 Analyzing commit: abc123"] ++
        Event.GetCommitDiff "svc:/some/path" "abc123" "" (some ⟨"unknown revision"⟩) ::
        [Event.Fatal "❌ Error getting commit diff: unknown revision"] ∧
      Event.GetCurrentRepoPath "" (some ⟨"not a git repository"⟩) ∈
        (run demoNoRepo flagsLatest 0).trace) ∧
    ((run demoGetFails flagsCommit 0).exit ≠ 0 ∧
      ∃ msg, [Event.Fatal "❌ Error getting commit diff: unknown revision"] =
        [(Event.Fatal msg : Event String String)]) ∧
    (([] : List (Event String String)) = []) ∧
    ((run demoNoRepo flagsLatest 0).trace.countP isNewGitService = 0 ∧
      modeCalls (run demoNoRepo flagsLatest 0).trace = 0 ∧
      (run demoNoRepo flagsLatest 0).trace.countP isPrintCommitDiff = 0) ∧
    ((run demoGetFails flagsCommit 0).trace.countP isPrintCommitDiff = 0 ∧
      (run demoGetFails flagsCommit 0).trace.countP isComplete = 0) :=
  ⟨⟨by decide, by decide⟩,
    (error_terminates_run demoGetFails flagsCommit 0).1
      [Event.NewGitService "/some/path" "svc:/some/path", Event.Log "🔍 Analyzing commit: abc123"]
      (Event.GetCommitDiff "svc:/some/path" "abc123" "" (some ⟨"unknown revision"⟩))
      [Event.Fatal "❌ Error getting commit diff: unknown revision"] (by decide) rfl,
    (error_terminates_run demoGetFails flagsCommit 0).2.1
      [Event.NewGitService "/some/path" "svc:/some/path", Event.Log "🔍 Analyzing commit: abc123",
        Event.GetCommitDiff "svc:/some/path" "abc123" "" (some ⟨"unknown revision"⟩)]
      "❌ Error getting commit diff: unknown revision" [] (by decide),
    (error_terminates_run demoNoRepo flagsLatest 0).2.2.1
      (Event.GetCurrentRepoPath "" (some ⟨"not a git repository"⟩)) (by decide) rfl rfl,
    (error_terminates_run demoGetFails flagsCommit 0).2.2.2
      (Event.GetCommitDiff "svc:/some/path" "abc123" "" (some ⟨"unknown revision"⟩))
      (by decide) (Or.inl rfl) rfl⟩

/-- C6: the exit status is 0 exactly when no collaborator call of the run
returned an error, and it is not 0 exactly when the run contains a failed call,
which is then repository discovery, the hook handler or one of the two diff
retrievals.  The statement is the same for all flag values. -/
theorem exit_status_zero_iff {W G D : Type} (S : Services W G D) (fl : Flags) (w : W) :
    ((run S fl w).exit = 0 ↔ ∀ ev ∈ (run S fl w).trace, failed ev = false) ∧
    ((run S fl w).exit ≠ 0 ↔ ∃ ev ∈ (run S fl w).trace, failed ev = true ∧
      (isGetCurrentRepoPath ev = true ∨ isOnCommitHook ev = true ∨
        isGetCommitDiff ev = true ∨ isGetLatestCommitDiff ev = true)) := by
  have key : (run S fl w).exit = 0 ↔ ∀ ev ∈ (run S fl w).trace, failed ev = false := by
    constructor
    · intro hx ev hev
      by_contra hf
      have := exit_of_failed S fl w ⟨ev, hev, by simpa using hf⟩
      omega
    · exact exit_of_no_failed S fl w
  refine ⟨key, ?_⟩
  constructor
  · intro hx
    rw [Ne, key] at hx
    push_neg at hx
    obtain ⟨ev, hev, hf⟩ := hx
    have hf2 : failed ev = true := by simpa using hf
    exact ⟨ev, hev, hf2, kind_of_failed hf2⟩
  · rintro ⟨ev, hev, hf, _⟩
    have := exit_of_failed S fl w ⟨ev, hev, hf⟩
    omega

/-! ### The confirmation line -/

/-- C7: in a run without a failed call the confirmation line is logged exactly
once and is the last entry of the trace, after the work of the selected mode
(`OnCommitHook` in hook mode, the retrieval and `PrintCommitDiff` in the two
diff modes); in a run with a failed call it is never logged. -/
theorem complete_logged_last {W G D : Type} (S : Services W G D) (fl : Flags) (w : W) :
    ((∀ ev ∈ (run S fl w).trace, failed ev = false) →
      (run S fl w).trace.countP isComplete = 1 ∧
      ∃ body, (run S fl w).trace = body ++ [Event.Log completeMsg] ∧
        (fl.hookMode = true → body.countP isOnCommitHook = 1) ∧
        (fl.hookMode = false → fl.commitHash ≠ "" →
          body.countP isGetCommitDiff = 1 ∧ body.countP isPrintCommitDiff = 1) ∧
        (fl.hookMode = false → fl.commitHash = "" →
          body.countP isGetLatestCommitDiff = 1 ∧ body.countP isPrintCommitDiff = 1)) ∧
    ((∃ ev ∈ (run S fl w).trace, failed ev = true) →
      (run S fl w).trace.countP isComplete = 0) := by
  refine ⟨fun hnf => ⟨complete_count_of_exit_zero S fl w (exit_of_no_failed S fl w hnf), ?_⟩,
    fun hf => complete_count_of_exit_one S fl w (exit_of_failed S fl w hf)⟩
  revert hnf
  have h := run_shape S fl w
  generalize run S fl w = o at h ⊢
  cases h with
  | hookOk pre path w1 g w2 w3 hR h2 hh h3 =>
    intro _
    refine ⟨pre ++ [.NewGitService path g, .Log "🎯 Running git commit analysis hook...",
      .OnCommitHook g none], by simp [completeMsg], ?_, ?_, ?_⟩
    all_goals obtain ⟨_, rfl, rfl, rfl⟩ | ⟨_, _, rfl⟩ := hR
    all_goals simp [hh, isOnCommitHook]
  | commitOk pre path w1 g w2 d w3 hR h2 hh hc h3 =>
    intro _
    refine ⟨pre ++ [.NewGitService path g, .Log ("🔍 Analyzing commit: " ++ fl.commitHash),
      .GetCommitDiff g fl.commitHash d none, .PrintCommitDiff g d], by simp [completeMsg],
      ?_, ?_, ?_⟩
    all_goals obtain ⟨_, rfl, rfl, rfl⟩ | ⟨_, _, rfl⟩ := hR
    all_goals simp [hh, hc, isGetCommitDiff, isPrintCommitDiff]
  | latestOk pre path w1 g w2 d w3 hR h2 hh hc h3 =>
    intro _
    refine ⟨pre ++ [.NewGitService path g, .Log "🔍 Analyzing latest commit...",
      .GetLatestCommitDiff g d none, .PrintCommitDiff g d], by simp [completeMsg],
      ?_, ?_, ?_⟩
    all_goals obtain ⟨_, rfl, rfl, rfl⟩ | ⟨_, _, rfl⟩ := hR
    all_goals simp [hh, hc, isGetLatestCommitDiff, isPrintCommitDiff]
  | discoverFail p e w1 _ _ =>
    intro hnf
    have := hnf (.GetCurrentRepoPath p (some e)) (by simp)
    simp [failed, errOf] at this
  | hookFail pre path w1 g w2 e w3 _ _ _ _ =>
    intro hnf
    have := hnf (.OnCommitHook g (some e)) (by simp)
    simp [failed, errOf] at this
  | commitFail pre path w1 g w2 d e w3 _ _ _ _ _ =>
    intro hnf
    have := hnf (.GetCommitDiff g fl.commitHash d (some e)) (by simp)
    simp [failed, errOf] at this
  | latestFail pre path w1 g w2 d e w3 _ _ _ _ _ =>
    intro hnf
    have := hnf (.GetLatestCommitDiff g d (some e)) (by simp)
    simp [failed, errOf] at this

theorem complete_logged_last_witness :
    ((∀ ev ∈ (run demoOk flagsHook 0).trace, failed ev = false) ∧
      ∃ ev ∈ (run demoHookFails flagsHook 0).trace, failed ev = true) ∧
    ((run demoOk flagsHook 0).trace.countP isComplete = 1 ∧
      ∃ body, (run demoOk flagsHook 0).trace = body ++ [Event.Log completeMsg] ∧
        (flagsHook.hookMode = true → body.countP isOnCommitHook = 1) ∧
        (flagsHook.hookMode = false → flagsHook.commitHash ≠ "" →
          body.countP isGetCommitDiff = 1 ∧ body.countP isPrintCommitDiff = 1) ∧
        (flagsHook.hookMode = false → flagsHook.commitHash = "" →
          body.countP isGetLatestCommitDiff = 1 ∧ body.countP isPrintCommitDiff = 1)) ∧
    (run demoHookFails flagsHook 0).trace.countP isComplete = 0 :=
  ⟨⟨by decide, by decide⟩,
    (complete_logged_last demoOk flagsHook 0).1 (by decide),
    (complete_logged_last demoHookFails flagsHook 0).2 (by decide)⟩

/-! ### One mode per run, no retry -/

/-- C8: in every run at most one of `OnCommitHook`, `GetCommitDiff` and
`GetLatestCommitDiff` is called, and at most once; exactly one call of them
happens when repository resolution succeeds and none when it fails. -/
theorem one_mode_per_run {W G D : Type} (S : Services W G D) (fl : Flags) (w : W) :
    modeCalls (run S fl w).trace ≤ 1 ∧
    (ResolutionSucceeds S fl w → modeCalls (run S fl w).trace = 1) ∧
    (¬ ResolutionSucceeds S fl w → modeCalls (run S fl w).trace = 0) := by
  have h := run_shape S fl w
  generalize run S fl w = o at h ⊢
  cases h
  all_goals first | obtain ⟨_, rfl, rfl, rfl⟩ | ⟨_, _, rfl⟩ := ‹Resolved S fl w _ _ _› | skip
  all_goals simp_all [ResolutionSucceeds, modeCalls, isOnCommitHook, isGetCommitDiff,
    isGetLatestCommitDiff]

theorem one_mode_per_run_witness :
    (ResolutionSucceeds demoOk flagsHook 0 ∧ ¬ ResolutionSucceeds demoNoRepo flagsLatest 0) ∧
    modeCalls (run demoOk flagsHook 0).trace = 1 ∧
    modeCalls (run demoNoRepo flagsLatest 0).trace = 0 :=
  ⟨⟨Or.inr rfl, by simp [ResolutionSucceeds, flagsLatest, demoNoRepo, demo]⟩,
    (one_mode_per_run demoOk flagsHook 0).2.1 (Or.inr rfl),
    (one_mode_per_run demoNoRepo flagsLatest 0).2.2
      (by simp [ResolutionSucceeds, flagsLatest, demoNoRepo, demo])⟩

/-- C9: no operation of the collaborator is called more than once in a run,
whether or not it returned an error, and a run makes at most four collaborator
calls in all. -/
theorem no_retry {W G D : Type} (S : Services W G D) (fl : Flags) (w : W) :
    (run S fl w).trace.countP isGetCurrentRepoPath ≤ 1 ∧
    (run S fl w).trace.countP isNewGitService ≤ 1 ∧
    (run S fl w).trace.countP isOnCommitHook ≤ 1 ∧
    (run S fl w).trace.countP isGetCommitDiff ≤ 1 ∧
    (run S fl w).trace.countP isGetLatestCommitDiff ≤ 1 ∧
    (run S fl w).trace.countP isPrintCommitDiff ≤ 1 ∧
    (run S fl w).trace.countP isCollaboratorCall ≤ 4 := by
  have h := run_shape S fl w
  generalize run S fl w = o at h ⊢
  cases h
  all_goals first | obtain ⟨_, rfl, rfl, rfl⟩ | ⟨_, _, rfl⟩ := ‹Resolved S fl w _ _ _› | skip
  all_goals simp [isGetCurrentRepoPath, isNewGitService, isOnCommitHook, isGetCommitDiff,
    isGetLatestCommitDiff, isPrintCommitDiff, isCollaboratorCall]

/-! ### The fatal message -/

/-- C10: a failing run logs exactly one fatal message, as the last entry of
its trace, directly after the call that failed; the message is a fixed text
chosen by that call alone, followed by the text of the error. -/
theorem fatal_message_fixed {W G D : Type} (S : Services W G D) (fl : Flags) (w : W)
    (hfail : (run S fl w).exit ≠ 0 ∨ ∃ ev ∈ (run S fl w).trace, failed ev = true) :
    (run S fl w).trace.countP isFatal = 1 ∧
    (∃ pre ev e, errOf ev = some e ∧
      (run S fl w).trace = pre ++ [ev, Event.Fatal (fatalLead ev ++ e.Error)]) ∧
    (∀ p err, fatalLead (Event.GetCurrentRepoPath p err : Event G D) =
      "❌ Error finding git repository: ") ∧
    (∀ g err, fatalLead (Event.OnCommitHook g err : Event G D) =
      "❌ Hook execution failed: ") ∧
    (∀ g h d err, fatalLead (Event.GetCommitDiff g h d err : Event G D) =
      "❌ Error getting commit diff: ") ∧
    (∀ g d err, fatalLead (Event.GetLatestCommitDiff g d err : Event G D) =
      "❌ Error getting latest commit diff: ") := by
  have hx : (run S fl w).exit ≠ 0 := by
    rcases hfail with h | h
    · exact h
    · rw [exit_of_failed S fl w h]
      decide
  refine ⟨?_, ?_, fun _ _ => rfl, fun _ _ => rfl, fun _ _ _ _ => rfl, fun _ _ _ => rfl⟩
  · rcases run_ends S fl w with ⟨h0, _⟩ | ⟨_, good, ev, e, hg, he, hall⟩
    · exact absurd h0 hx
    · have h0 : good.countP isFatal = 0 :=
        List.countP_eq_zero.2 fun x hx => by simp [(hall x hx).2.1]
      have h1 := not_fatal_of_errOf he
      have h2 : isFatal (Event.Fatal (fatalLead ev ++ e.Error) : Event G D) = true := rfl
      rw [hg, List.countP_append, h0]
      simp [List.countP_cons, h1, h2]
  · rcases run_ends S fl w with ⟨h0, _⟩ | ⟨_, good, ev, e, hg, he, _⟩
    · exact absurd h0 hx
    · exact ⟨good, ev, e, he, hg⟩

theorem fatal_message_fixed_witness :
    (run demoHookFails flagsHook 0).exit ≠ 0 ∧
    (run demoHookFails flagsHook 0).trace.countP isFatal = 1 ∧
    (∃ pre ev e, errOf ev = some e ∧
      (run demoHookFails flagsHook 0).trace =
        pre ++ [ev, Event.Fatal (fatalLead ev ++ e.Error)]) ∧
    (run demoHookFails flagsHook 0).trace.getLast? =
      some (Event.Fatal "❌ Hook execution failed: hook broke") :=
  ⟨by decide,
    (fatal_message_fixed demoHookFails flagsHook 0 (Or.inl (by decide))).1,
    (fatal_message_fixed demoHookFails flagsHook 0 (Or.inl (by decide))).2.1,
    by decide⟩

end GitHook
